import Mathlib

/-!
# Verification of the sbml2cellml converter and simulator glue code

Shallow embedding of `src/sbml2cellml/cellml2sbml.py` and
`src/cellml/cellml_simulator.py`.  Python floats are modelled as `FVal`
(either NaN or a rational); the external libraries (libsbml, libcellml,
libopencor) are modelled abstractly: formula/MathML serialisation is a
string-valued parameter, the simulation engine is a structure of
functions, and Python dicts are insertion-ordered association lists.
-/

set_option maxHeartbeats 1000000

/-- A Python float value: either NaN or an actual (rational) number.
Infinities do not occur in the claims under study. -/
inductive FVal where
  | nan : FVal
  | num : ℚ → FVal
deriving DecidableEq

/-- Multiplication on Python floats: NaN propagates. -/
def FVal.mul : FVal → FVal → FVal
  | .num a, .num b => .num (a * b)
  | _, _ => .nan

/-- Insertion-ordered dictionary assignment `d[k] = v` (Python dict
semantics: an existing key keeps its position, a new key is appended). -/
def dictUpd {α : Type} : List (String × α) → String → α → List (String × α)
  | [], k, v => [(k, v)]
  | p :: d, k, v => if p.1 = k then (k, v) :: d else p :: dictUpd d k v

/-- Dictionary lookup `d[k]`, `none` when the key is absent (Python raises
`KeyError` in that case, modelled by the caller). -/
def dictGet? {α : Type} : List (String × α) → String → Option α
  | [], _ => none
  | p :: d, k => if p.1 = k then some p.2 else dictGet? d k

/-- An SBML compartment: id and size (`getSize()` is NaN when unset). -/
structure SBMLCompartment where
  id : String
  size : FVal
deriving DecidableEq

/-- An SBML parameter: id and value (`getValue()` is NaN when unset). -/
structure SBMLParameter where
  id : String
  value : FVal
deriving DecidableEq

/-- An SBML species.  `initialAmount`/`initialConcentration` are `some`
exactly when `isSetInitialAmount()`/`isSetInitialConcentration()` hold. -/
structure SBMLSpecies where
  id : String
  compartment : String
  hasOnlySubstanceUnits : Bool
  initialAmount : Option FVal
  initialConcentration : Option FVal
deriving DecidableEq

/-- The type code of an SBML rule (`getTypeCode()`), restricted to the
cases the converter distinguishes. -/
inductive SBMLRuleType where
  | assignmentRule : SBMLRuleType
  | rateRule : SBMLRuleType
  | otherRule : SBMLRuleType
deriving DecidableEq

/-- An SBML rule: target variable, type code, and the L3 formula string
(`formulaToL3String(getMath())` abstracted as a field). -/
structure SBMLRule where
  vid : String
  typeCode : SBMLRuleType
  formula : String
deriving DecidableEq

/-- An SBML reaction: reactant/product species references (by species id,
in list order) and the kinetic-law L3 formula string. -/
structure SBMLReaction where
  reactants : List String
  products : List String
  formula : String
deriving DecidableEq

/-- An SBML model as read by the converter.  `id` is `some` exactly when
`isSetId()` holds. -/
structure SBMLModel where
  id : Option String
  compartments : List SBMLCompartment
  parameters : List SBMLParameter
  species : List SBMLSpecies
  rules : List SBMLRule
  reactions : List SBMLReaction
deriving DecidableEq

/-- An SBML document: `model` is `none` when `getModel()` returns no model. -/
structure SBMLDocument where
  model : Option SBMLModel
deriving DecidableEq

/-- A CellML variable: name, units, and optional initial value.  The time
variable is the only one whose initial value is never set. -/
structure CellMLVariable where
  name : String
  units : String
  initialValue : Option FVal
deriving DecidableEq

/-- A CellML component: name, variables in insertion order (`vars` models
the list populated by `addVariable`), math string. -/
structure CellMLComponent where
  name : String
  vars : List CellMLVariable
  math : String
deriving DecidableEq

/-- A CellML model: name, units definitions (by name), components in
insertion order. -/
structure CellMLModel where
  name : String
  unitsDefs : List String
  components : List CellMLComponent
deriving DecidableEq

/-- Exceptions the conversion can raise.  `noModel` is the explicit
`SBML2CellMLConversionError`; the others model Python runtime errors. -/
inductive ConvError where
  | noModel : ConvError
  | unboundLocal : ConvError
  | keyError : ConvError
  | attributeError : ConvError
deriving DecidableEq

/-- `process_init_value`: NaN initial values are replaced by 1.0, all
other values pass through unchanged (the `sid` argument is only used for
the warning print). -/
def process_init_value (sid : String) (value : FVal) : FVal :=
  match sid, value with
  | _, .nan => .num 1
  | _, v => v

/-- A compartment/parameter/species CellML variable as built by the
converter: units hard-coded to "dimensionless", initial value set. -/
def mkVar (name : String) (vinit : FVal) : CellMLVariable :=
  { name := name, units := "dimensionless", initialValue := some vinit }

/-- The `vinit` computation of the species loop.  `prev` is the current
value of the Python local `vinit` from earlier iterations: a species with
neither initial amount nor initial concentration set falls through to it
(stale reuse), and errors with `unboundLocal` when it was never assigned. -/
def speciesVinit (cdict : List (String × FVal)) (prev : Option FVal)
    (s : SBMLSpecies) : Except ConvError FVal :=
  match s.initialAmount with
  | some a0 =>
    let amount := process_init_value s.id a0
    if s.hasOnlySubstanceUnits then .ok amount
    else
      match dictGet? cdict s.compartment with
      | none => .error .keyError
      | some c => .ok (FVal.mul amount c)
  | none =>
    match s.initialConcentration with
    | some c0 =>
      let concentration := process_init_value s.id c0
      if s.hasOnlySubstanceUnits then
        match dictGet? cdict s.compartment with
        | none => .error .keyError
        | some c => .ok (FVal.mul concentration c)
      else .ok concentration
    | none =>
      match prev with
      | some v => .ok v
      | none => .error .unboundLocal

/-- The species loop of `convert_sbml2cellml`: builds one variable per
species, threading the Python local `vinit` across iterations. -/
def speciesLoop (cdict : List (String × FVal)) :
    List SBMLSpecies → List CellMLVariable → Option FVal →
    Except ConvError (List CellMLVariable × Option FVal)
  | [], acc, prev => .ok (acc, prev)
  | s :: rest, acc, prev =>
    match speciesVinit cdict prev s with
    | .error e => .error e
    | .ok vinit => speciesLoop cdict rest (acc ++ [mkVar s.id vinit]) (some vinit)

/-- `species_types`: maps each species id to "amount" or "concentration"
according to `hasOnlySubstanceUnits`. -/
def speciesTypesOf (species : List SBMLSpecies) : List (String × String) :=
  species.foldl
    (fun d s =>
      dictUpd d s.id (if s.hasOnlySubstanceUnits then "amount" else "concentration"))
    []

/-- `cdict` and the compartment variables, built by the single compartment
loop of the converter. -/
def compartmentData (compartments : List SBMLCompartment) :
    List (String × FVal) × List CellMLVariable :=
  compartments.foldl
    (fun acc c =>
      let cvalue := process_init_value c.id c.size
      (dictUpd acc.1 c.id cvalue, acc.2 ++ [mkVar c.id cvalue]))
    ([], [])

/-- The parameter loop: one variable per parameter. -/
def parameterVars (parameters : List SBMLParameter) : List CellMLVariable :=
  parameters.map (fun p => mkVar p.id (process_init_value p.id p.value))

/-- The rules loop: collects assignment rules into `arules` and rate rules
into `rrules` (other rule types are skipped). -/
def collectRules (rules : List SBMLRule) :
    List (String × String) × List (String × String) :=
  rules.foldl
    (fun acc rule =>
      match rule.typeCode with
      | .assignmentRule => (dictUpd acc.1 rule.vid rule.formula, acc.2)
      | .rateRule => (acc.1, dictUpd acc.2 rule.vid rule.formula)
      | .otherRule => acc)
    ([], [])

/-- Appending one signed kinetic-law contribution to `reaction_terms`:
an existing entry grows by a space-separated term, a missing entry is
created. -/
def addTerm (d : List (String × String)) (sid fstr : String) :
    List (String × String) :=
  match dictGet? d sid with
  | some old => dictUpd d sid (old ++ " " ++ fstr)
  | none => dictUpd d sid fstr

/-- Processing of one reaction in the reactions loop: every reactant
occurrence appends "- (formula)" and then every product occurrence
appends "+ (formula)" to that species' accumulated term. -/
def reactionStep (d : List (String × String)) (r : SBMLReaction) :
    List (String × String) :=
  let d1 := r.reactants.foldl
    (fun d reactant_id => addTerm d reactant_id ("- (" ++ r.formula ++ ")")) d
  r.products.foldl
    (fun d product_id => addTerm d product_id ("+ (" ++ r.formula ++ ")")) d1

/-- The reactions loop building `reaction_terms`. -/
def collectReactionTerms (reactions : List SBMLReaction) :
    List (String × String) :=
  reactions.foldl reactionStep []

/-- The concentration wrapping applied to the accumulated term of a
species of type "concentration". -/
def concWrap (cid term : String) : String :=
  "1.0 dimensionless/" ++ cid ++ " * (" ++ term ++ ")"

/-- The amount/concentration scaling loop building `reaction_terms_all`:
"amount" species keep their term, "concentration" species get the
`concWrap` of their compartment; a species id absent from
`species_types` raises `KeyError`, and `getSpecies` returning no species
raises `AttributeError` at the `getCompartment` call. -/
def scaleTerms (mdl : SBMLModel) (stypes : List (String × String)) :
    List (String × String) → Except ConvError (List (String × String))
  | [] => .ok []
  | (sid, term) :: rest =>
    match dictGet? stypes sid with
    | none => .error .keyError
    | some ty =>
      if ty = "amount" then
        match scaleTerms mdl stypes rest with
        | .error e => .error e
        | .ok r => .ok ((sid, term) :: r)
      else if ty = "concentration" then
        match mdl.species.find? (fun s => s.id = sid) with
        | none => .error .attributeError
        | some s =>
          match scaleTerms mdl stypes rest with
          | .error e => .error e
          | .ok r => .ok ((sid, concWrap s.compartment term) :: r)
      else scaleTerms mdl stypes rest

/-- `xml_prefix`, removed from library MathML output. -/
def xmlDeclHeader : String := "<?xml version=\"1.0\" encoding=\"UTF-8\"?>"

/-- `mathml_prefixes`, removed from library MathML output. -/
def mathmlOpenTags : List String :=
  ["<math xmlns=\"http://www.w3.org/1998/Math/MathML\">",
   "<math xmlns=\"http://www.w3.org/1998/Math/MathML\" xmlns:sbml=\"http://www.sbml.org/sbml/level3/version2/core\">"]

/-- `mathml_suffix`, removed from library MathML output. -/
def mathmlCloseTag : String := "</math>"

/-- `process_mathml_for_cellml`: runs the library serialisation (the
`toMathML` parameter stands for `writeMathMLToString ∘ parseL3Formula`),
strips the XML declaration, the math open tags and the close tag, swaps
the sbml units namespace prefix for the cellml one, and trims whitespace. -/
def process_mathml_for_cellml (toMathML : String → String) (formula : String) :
    String :=
  let mathml0 := toMathML formula
  let mathml1 := mathml0.replace xmlDeclHeader ""
  let mathml2 := mathmlOpenTags.foldl (fun s p => s.replace p "") mathml1
  let mathml3 := mathml2.replace mathmlCloseTag ""
  let mathml4 := mathml3.replace "sbml:units" "cellml:units"
  mathml4.trim

/-- `mathml_for_diff`: the differential-equation MathML template. -/
def mathml_for_diff (toMathML : String → String) (vid formula ivid : String) :
    String :=
  let rhs_str := process_mathml_for_cellml toMathML formula
  "<apply>\n  <eq/>\n  <apply>\n    <diff/>\n    <bvar>\n      <ci>" ++ ivid ++
    "</ci>\n    </bvar>\n    <ci>" ++ vid ++ "</ci>\n  </apply>\n  " ++
    rhs_str ++ "\n</apply>\n    "

/-- `mathml_for_assignment`: the assignment-equation MathML template. -/
def mathml_for_assignment (toMathML : String → String) (vid formula : String) :
    String :=
  let rhs_str := process_mathml_for_cellml toMathML formula
  "<apply>\n  <eq/>\n  <ci>" ++ vid ++ "</ci>\n  " ++ rhs_str ++ "\n</apply>\n"

/-- The opening `<math>` tag of the combined component math, carrying both
the MathML and the CellML namespaces. -/
def cellmlMathOpen : String :=
  "<math xmlns=\"http://www.w3.org/1998/Math/MathML\" xmlns:cellml=\"http://www.cellml.org/cellml/2.0#\">\n"

/-- The time variable added first to the component. -/
def timeVar : CellMLVariable :=
  { name := "time", units := "dimensionless", initialValue := none }

/-- The combined component math string: the single `<math>` open tag with
both namespaces, the parts joined by newlines, the close tag. -/
def combinedMath (toMathML : String → String) (mdl : SBMLModel)
    (scaled : List (String × String)) : String :=
  let mathml_parts :=
    ((collectRules mdl.rules).1.map
      (fun kv => mathml_for_assignment toMathML kv.1 kv.2)) ++
    ((collectRules mdl.rules).2.map
      (fun kv => mathml_for_diff toMathML kv.1 kv.2 "time")) ++
    (scaled.map (fun kv => mathml_for_diff toMathML kv.1 kv.2 "time"))
  cellmlMathOpen ++ String.intercalate "\n" mathml_parts ++ mathmlCloseTag

/-- The CellML model produced on the success path of the converter. -/
def convertOutput (toMathML : String → String) (mdl : SBMLModel) (stem : String)
    (svars : List CellMLVariable) (scaled : List (String × String)) :
    CellMLModel :=
  { name := mdl.id.getD stem,
    unitsDefs := ["per_second"],
    components := [{ name := "sbml",
                     vars := timeVar :: ((compartmentData mdl.compartments).2 ++
                       parameterVars mdl.parameters ++ svars),
                     math := combinedMath toMathML mdl scaled }] }

/-- Body of `convert_sbml2cellml` once a model is present. -/
def convertModel (toMathML : String → String) (mdl : SBMLModel) (stem : String) :
    Except ConvError CellMLModel :=
  match speciesLoop (compartmentData mdl.compartments).1 mdl.species [] none with
  | .error e => .error e
  | .ok (svars, _) =>
    match scaleTerms mdl (speciesTypesOf mdl.species)
        (collectReactionTerms mdl.reactions) with
    | .error e => .error e
    | .ok scaled => .ok (convertOutput toMathML mdl stem svars scaled)

/-- `convert_sbml2cellml`: raises `SBML2CellMLConversionError` when the
document holds no model, otherwise converts it.  `stem` is the stem of the
input path, used as model id fallback. -/
def convert_sbml2cellml (toMathML : String → String) (doc : SBMLDocument)
    (stem : String) : Except ConvError CellMLModel :=
  match doc.model with
  | none => .error .noModel
  | some mdl => convertModel toMathML mdl stem

/-- A library-reported issue (level and description). -/
structure LibIssue where
  level : String
  description : String
deriving DecidableEq

/-- Right-align a number in width 3, as the Python format spec `{count:3}`
does. -/
def padTo3 (n : Nat) : String :=
  let s := toString n
  if s.length < 3 then String.mk (List.replicate (3 - s.length) ' ') ++ s else s

/-- The line printed for one issue by `print_issues`. -/
def issueLine (index : Nat) (iss : LibIssue) : String :=
  "[" ++ padTo3 (index + 1) ++ "] - (" ++ iss.level ++ ") " ++ iss.description

/-- `print_issues`: when the logger holds issues, prints the title with
the issue count and then one line per issue; returns the printed lines. -/
def print_issues (title : String) (issues : List LibIssue) : List String :=
  if issues.length ≠ 0 then
    (title ++ " " ++ toString issues.length) ::
      (List.range issues.length).map
        (fun index => issueLine index ((issues.get? index).getD ⟨"", ""⟩))
  else []

/-- `validate_cellml`: prints the printer, validator and analyser issues
in turn; modelled on the three issue lists. -/
def validate_cellml (printerIssues validatorIssues analyserIssues : List LibIssue) :
    List String :=
  print_issues "Printer: " printerIssues ++
  print_issues "Validator: " validatorIssues ++
  print_issues "Analyser: " analyserIssues

/-- A loaded libopencor file: only its issue list matters here. -/
structure OCFile where
  issues : List LibIssue
deriving DecidableEq

/-- A libopencor SED-ML document: only its issue list matters here. -/
structure OCSedDocument where
  issues : List LibIssue
deriving DecidableEq

/-- One instantiated task: variable of integration (values, name, unit)
and the states (name, values, unit), indexed as `state_name(k)` etc. -/
structure OCSedInstanceTask where
  voi : List ℚ
  voi_name : String
  voi_unit : String
  states : List (String × List ℚ × String)
deriving DecidableEq

/-- `state_count` of a task. -/
def OCSedInstanceTask.state_count (t : OCSedInstanceTask) : Nat :=
  t.states.length

/-- `state_name(k)` of a task. -/
def OCSedInstanceTask.state_name (t : OCSedInstanceTask) (k : Nat) : String :=
  ((t.states.get? k).map (fun p => p.1)).getD ""

/-- `state(k)` of a task. -/
def OCSedInstanceTask.state (t : OCSedInstanceTask) (k : Nat) : List ℚ :=
  ((t.states.get? k).map (fun p => p.2.1)).getD []

/-- `state_unit(k)` of a task. -/
def OCSedInstanceTask.state_unit (t : OCSedInstanceTask) (k : Nat) : String :=
  ((t.states.get? k).map (fun p => p.2.2)).getD ""

/-- A SED-ML instance: issue list and tasks. -/
structure OCSedInstance where
  issues : List LibIssue
  tasks : List OCSedInstanceTask
deriving DecidableEq

/-- The uniform-time-course settings written by the driver. -/
structure SimSettings where
  initial_time : ℚ
  output_start_time : ℚ
  output_end_time : ℚ
  number_of_steps : Nat
deriving DecidableEq

/-- The libopencor engine, abstracted: how files load, documents build,
instances come to be and what running does to an instance. -/
structure Engine where
  loadFile : String → OCFile
  makeDocument : OCFile → OCSedDocument
  instantiateDocument : OCSedDocument → SimSettings → OCSedInstance
  runInstance : OCSedInstance → OCSedInstance

/-- Observable steps of `run_cellml_timecourse`, in execution order. -/
inductive SimEvent where
  | load : String → SimEvent
  | printOut : String → SimEvent
  | buildDocument : SimEvent
  | configureSimulation : ℚ → ℚ → ℚ → Nat → SimEvent
  | instantiateDoc : SimEvent
  | runSim : SimEvent
  | extractTask : Nat → SimEvent
deriving DecidableEq

/-- The message printed by one `if len(issues) != 0` check: the first
issue's description when issues exist, the all-good message otherwise. -/
def issueCheckMsg (good : String) (issues : List LibIssue) : String :=
  match issues with
  | [] => good
  | i :: _ => i.description

/-- `run_cellml_timecourse`: loads the model file and checks it, builds
the SED-ML document and checks it, configures the uniform time course,
instantiates the document and checks the instance, runs it and checks
again, then extracts the first task's results into a data frame (an
ordered dict of columns) and a units dict.  Returns the result (or the
`IndexError` raised by `tasks[0]`) together with the event trace. -/
def run_cellml_timecourse (eng : Engine) (cellml_path : String)
    (start endTime : ℚ) (steps : Nat) :
    Except String (List (String × List ℚ) × List (String × String)) ×
      List SimEvent :=
  let file := eng.loadFile cellml_path
  let ev1 := [SimEvent.load cellml_path,
              SimEvent.printOut (issueCheckMsg "File: all good!" file.issues)]
  let document := eng.makeDocument file
  let ev2 := ev1 ++ [SimEvent.buildDocument,
                     SimEvent.printOut (issueCheckMsg "Document: all good!" document.issues)]
  let ev3 := ev2 ++ [SimEvent.configureSimulation start start endTime steps]
  let inst0 := eng.instantiateDocument document
    { initial_time := start, output_start_time := start,
      output_end_time := endTime, number_of_steps := steps }
  let ev4 := ev3 ++ [SimEvent.instantiateDoc,
                     SimEvent.printOut (issueCheckMsg "Instance: all good!" inst0.issues)]
  let inst1 := eng.runInstance inst0
  let ev5 := ev4 ++ [SimEvent.runSim,
                     SimEvent.printOut (issueCheckMsg "Instance running: all good!" inst1.issues)]
  match inst1.tasks with
  | [] => (.error "IndexError", ev5)
  | t :: _ =>
    let ev6 := ev5 ++ [SimEvent.extractTask 0]
    let data0 : List (String × List ℚ) := [(t.voi_name, t.voi)]
    let units0 : List (String × String) := [(t.voi_name, t.voi_unit)]
    let dataF := (List.range t.state_count).foldl
      (fun d k => dictUpd d (t.state_name k) (t.state k)) data0
    let unitsF := (List.range t.state_count).foldl
      (fun u k => dictUpd u (t.state_name k) (t.state_unit k)) units0
    (.ok (dataF, unitsF), ev6)


theorem dictGet?_dictUpd {α : Type} (d : List (String × α)) (k s : String) (v : α) :
    dictGet? (dictUpd d k v) s = if s = k then some v else dictGet? d s := by
  induction d with
  | nil =>
    simp only [dictUpd, dictGet?]
    by_cases h : k = s
    · simp [h]
    · have h' : ¬ s = k := fun hh => h hh.symm
      simp [h, h']
  | cons p d ih =>
    simp only [dictUpd]
    by_cases h1 : p.1 = k
    · simp only [if_pos h1, dictGet?]
      by_cases h2 : s = k
      · simp [h2]
      · have hks : ¬ k = s := fun hh => h2 hh.symm
        have hps : ¬ p.1 = s := fun hh => h2 (by rw [← hh, h1])
        simp [hks, h2, hps]
    · simp only [if_neg h1, dictGet?, ih]
      by_cases h2 : p.1 = s
      · have hsk : ¬ s = k := fun hh => h1 (h2.trans hh)
        simp [h2, hsk]
      · simp [h2]

theorem speciesLoop_ok_names (cdict : List (String × FVal)) :
    ∀ (ss : List SBMLSpecies) (acc : List CellMLVariable) (prev : Option FVal)
      (vs : List CellMLVariable) (p : Option FVal),
      speciesLoop cdict ss acc prev = .ok (vs, p) →
      vs.map (fun v => v.name) = acc.map (fun v => v.name) ++ ss.map (fun s => s.id) := by
  intro ss
  induction ss with
  | nil =>
    intro acc prev vs p h
    simp [speciesLoop] at h
    simp [h.1]
  | cons s rest ih =>
    intro acc prev vs p h
    simp only [speciesLoop] at h
    cases hv : speciesVinit cdict prev s with
    | error e => rw [hv] at h; exact absurd h (by simp)
    | ok vinit =>
      rw [hv] at h
      have := ih (acc ++ [mkVar s.id vinit]) (some vinit) vs p h
      simpa [mkVar] using this

theorem speciesVinit_ne_noModel (cdict : List (String × FVal)) (prev : Option FVal)
    (s : SBMLSpecies) : speciesVinit cdict prev s ≠ .error .noModel := by
  unfold speciesVinit
  repeat' split
  all_goals simp_all

theorem speciesLoop_ne_noModel (cdict : List (String × FVal)) :
    ∀ (ss : List SBMLSpecies) (acc : List CellMLVariable) (prev : Option FVal),
      speciesLoop cdict ss acc prev ≠ .error .noModel := by
  intro ss
  induction ss with
  | nil => intro acc prev; simp [speciesLoop]
  | cons s rest ih =>
    intro acc prev
    simp only [speciesLoop]
    cases hv : speciesVinit cdict prev s with
    | error e =>
      have h2 := speciesVinit_ne_noModel cdict prev s
      rw [hv] at h2
      simpa using h2
    | ok vinit => exact ih _ _

theorem scaleTerms_ne_noModel (mdl : SBMLModel) (stypes : List (String × String)) :
    ∀ (terms : List (String × String)),
      scaleTerms mdl stypes terms ≠ .error .noModel := by
  intro terms
  induction terms with
  | nil => simp [scaleTerms]
  | cons p rest ih =>
    simp only [scaleTerms]
    repeat' split
    all_goals simp_all

theorem compartmentData_vars (cs : List SBMLCompartment) :
    (compartmentData cs).2 =
      cs.map (fun c => mkVar c.id (process_init_value c.id c.size)) := by
  have go : ∀ (l : List SBMLCompartment)
      (acc : List (String × FVal) × List CellMLVariable),
      (l.foldl (fun acc c =>
        let cvalue := process_init_value c.id c.size
        (dictUpd acc.1 c.id cvalue, acc.2 ++ [mkVar c.id cvalue])) acc).2
      = acc.2 ++ l.map (fun c => mkVar c.id (process_init_value c.id c.size)) := by
    intro l
    induction l with
    | nil => intro acc; simp
    | cons c rest ih => intro acc; simp only [List.foldl]; rw [ih]; simp
  simpa [compartmentData] using go cs ([], [])

theorem convertModel_ok_elim {toMathML : String → String} {mdl : SBMLModel}
    {stem : String} {m : CellMLModel}
    (h : convertModel toMathML mdl stem = .ok m) :
    ∃ svars prev scaled,
      speciesLoop (compartmentData mdl.compartments).1 mdl.species [] none =
        .ok (svars, prev) ∧
      scaleTerms mdl (speciesTypesOf mdl.species)
        (collectReactionTerms mdl.reactions) = .ok scaled ∧
      m = convertOutput toMathML mdl stem svars scaled := by
  unfold convertModel at h
  split at h
  · exact absurd h (by simp)
  · rename_i svars prev heq
    split at h
    · exact absurd h (by simp)
    · rename_i scaled heq2
      simp only [Except.ok.injEq] at h
      exact ⟨svars, prev, scaled, heq, heq2, h.symm⟩

theorem convertModel_ne_noModel (toMathML : String → String) (mdl : SBMLModel)
    (stem : String) : convertModel toMathML mdl stem ≠ .error .noModel := by
  unfold convertModel
  cases hsp : speciesLoop (compartmentData mdl.compartments).1 mdl.species [] none with
  | error e =>
    have h2 := speciesLoop_ne_noModel (compartmentData mdl.compartments).1
      mdl.species [] none
    rw [hsp] at h2
    simpa using h2
  | ok pr =>
    obtain ⟨svars, prev⟩ := pr
    cases hsc : scaleTerms mdl (speciesTypesOf mdl.species)
        (collectReactionTerms mdl.reactions) with
    | error e =>
      have h2 := scaleTerms_ne_noModel mdl (speciesTypesOf mdl.species)
        (collectReactionTerms mdl.reactions)
      rw [hsc] at h2
      simpa using h2
    | ok scaled =>
      simp

/-- Claim C4: the conversion raises `SBML2CellMLConversionError` ("No
model in SBMLDocument.") exactly when the document holds no model; a
document with a model never takes this error branch. -/
theorem claim_C4_no_model_error (toMathML : String → String)
    (doc : SBMLDocument) (stem : String) :
    convert_sbml2cellml toMathML doc stem = .error .noModel ↔
      doc.model = none := by
  constructor
  · intro h
    cases hd : doc.model with
    | none => rfl
    | some mdl =>
      exfalso
      apply convertModel_ne_noModel toMathML mdl stem
      rw [← h]
      unfold convert_sbml2cellml
      rw [hd]
  · intro h
    unfold convert_sbml2cellml
    rw [h]

/-- Claim C1: for a document with a model, a successful conversion yields
a CellML model with a single component named "sbml" whose variable list is
exactly the time variable followed by one variable per compartment, per
parameter and per species, in that order. -/
theorem claim_C1_one_variable_per_entity (toMathML : String → String)
    (doc : SBMLDocument) (mdl : SBMLModel) (stem : String) (m : CellMLModel)
    (hm : doc.model = some mdl)
    (hc : convert_sbml2cellml toMathML doc stem = .ok m) :
    ∃ comp, m.components = [comp] ∧ comp.name = "sbml" ∧
      comp.vars.map (fun v => v.name) =
        "time" :: (mdl.compartments.map (fun c => c.id) ++
          mdl.parameters.map (fun p => p.id) ++
          mdl.species.map (fun s => s.id)) := by
  unfold convert_sbml2cellml at hc
  rw [hm] at hc
  obtain ⟨svars, prev, scaled, hsp, _, hm2⟩ := convertModel_ok_elim hc
  subst hm2
  refine ⟨_, rfl, rfl, ?_⟩
  have hs := speciesLoop_ok_names _ _ _ _ _ _ hsp
  simp only [List.map_nil, List.nil_append] at hs
  simp [timeVar, convertOutput, compartmentData_vars, parameterVars, mkVar, hs,
    Function.comp_def]

/-- A small concrete SBML model used to instantiate the theorems. -/
def mdlW : SBMLModel :=
  { id := some "modelW",
    compartments := [{ id := "c", size := .num 2 }],
    parameters := [{ id := "k1", value := .num 3 }],
    species := [{ id := "S1", compartment := "c", hasOnlySubstanceUnits := true,
                  initialAmount := some (.num 4), initialConcentration := none }],
    rules := [], reactions := [] }

/-- A concrete SBML document wrapping `mdlW`. -/
def docW : SBMLDocument := { model := some mdlW }

/-- The CellML model the converter produces from `docW`. -/
def outW : CellMLModel :=
  convertOutput (fun s => s) mdlW "stemW" [mkVar "S1" (.num 4)] []

theorem claim_C1_witness :
    docW.model = some mdlW ∧
    convert_sbml2cellml (fun s => s) docW "stemW" = .ok outW ∧
    ∃ comp, outW.components = [comp] ∧ comp.name = "sbml" ∧
      comp.vars.map (fun v => v.name) =
        "time" :: (mdlW.compartments.map (fun c => c.id) ++
          mdlW.parameters.map (fun p => p.id) ++
          mdlW.species.map (fun s => s.id)) :=
  ⟨rfl, rfl,
    claim_C1_one_variable_per_entity (fun s => s) docW mdlW "stemW" outW rfl rfl⟩

/-- Claim C8: NaN initial values are replaced by 1.0 by
`process_init_value`, non-NaN values pass through unchanged, and the
converter routes every compartment, parameter and species initial value
through `process_init_value` before setting it on the variable. -/
theorem claim_C8_nan_initial_values :
    (∀ sid, process_init_value sid .nan = .num 1) ∧
    (∀ sid q, process_init_value sid (.num q) = .num q) ∧
    (∀ cs, (compartmentData cs).2 =
      cs.map (fun c => mkVar c.id (process_init_value c.id c.size))) ∧
    (∀ ps, parameterVars ps =
      ps.map (fun p => mkVar p.id (process_init_value p.id p.value))) ∧
    (∀ cdict prev (s : SBMLSpecies) a, s.initialAmount = some a →
      s.hasOnlySubstanceUnits = true →
      speciesVinit cdict prev s = .ok (process_init_value s.id a)) ∧
    (∀ cdict prev (s : SBMLSpecies) c0, s.initialAmount = none →
      s.initialConcentration = some c0 → s.hasOnlySubstanceUnits = false →
      speciesVinit cdict prev s = .ok (process_init_value s.id c0)) := by
  refine ⟨fun sid => rfl, fun sid q => rfl, compartmentData_vars,
    fun ps => rfl, ?_, ?_⟩
  · intro cdict prev s a ha hso
    unfold speciesVinit
    rw [ha, hso]
    simp
  · intro cdict prev s c0 ha hc hso
    unfold speciesVinit
    rw [ha, hc, hso]
    simp

/-- A species whose initial amount is NaN, for the C8 witness. -/
def spNan : SBMLSpecies :=
  { id := "Sn", compartment := "c", hasOnlySubstanceUnits := true,
    initialAmount := some .nan, initialConcentration := none }

theorem claim_C8_witness :
    process_init_value "p1" .nan = .num 1 ∧
    process_init_value "p2" (.num 5) = .num 5 ∧
    speciesVinit [] none spNan = .ok (.num 1) := by
  refine ⟨claim_C8_nan_initial_values.1 "p1",
    claim_C8_nan_initial_values.2.1 "p2" 5, ?_⟩
  have h := claim_C8_nan_initial_values.2.2.2.2.1 [] none spNan .nan rfl rfl
  simpa using h

theorem speciesVinit_ne_unbound (cdict : List (String × FVal)) (prev : Option FVal)
    (s : SBMLSpecies)
    (h : s.initialAmount.isSome ∨ s.initialConcentration.isSome) :
    speciesVinit cdict prev s ≠ .error .unboundLocal := by
  unfold speciesVinit
  repeat' split
  all_goals simp_all

/-- Claim C9: a species with neither initial amount nor initial
concentration set leaves the Python local `vinit` untouched: when such a
species comes first the conversion fails with an unbound-local error, a
later such species silently reuses the previously computed initial value,
and when every species has one of the two set the species loop never
raises the unbound-local error. -/
theorem claim_C9_unbound_vinit :
    (∀ (toMathML : String → String) (doc : SBMLDocument) (mdl : SBMLModel)
      (stem : String) (s : SBMLSpecies) (rest : List SBMLSpecies),
      doc.model = some mdl → mdl.species = s :: rest →
      s.initialAmount = none → s.initialConcentration = none →
      convert_sbml2cellml toMathML doc stem = .error .unboundLocal) ∧
    (∀ (cdict : List (String × FVal)) (v : FVal) (s : SBMLSpecies),
      s.initialAmount = none → s.initialConcentration = none →
      speciesVinit cdict (some v) s = .ok v) ∧
    (∀ (cdict : List (String × FVal)) (ss : List SBMLSpecies)
      (acc : List CellMLVariable) (prev : Option FVal),
      (∀ s ∈ ss, s.initialAmount.isSome ∨ s.initialConcentration.isSome) →
      speciesLoop cdict ss acc prev ≠ .error .unboundLocal) := by
  refine ⟨?_, ?_, ?_⟩
  · intro toMathML doc mdl stem s rest hm hsp ha hc
    unfold convert_sbml2cellml
    rw [hm]
    show convertModel toMathML mdl stem = Except.error ConvError.unboundLocal
    unfold convertModel
    have hloop : speciesLoop (compartmentData mdl.compartments).1 mdl.species
        [] none = .error .unboundLocal := by
      rw [hsp]
      simp only [speciesLoop]
      have hv : speciesVinit (compartmentData mdl.compartments).1 none s =
          .error .unboundLocal := by
        unfold speciesVinit
        rw [ha, hc]
      rw [hv]
    rw [hloop]
  · intro cdict v s ha hc
    unfold speciesVinit
    rw [ha, hc]
  · intro cdict ss
    induction ss with
    | nil => intro acc prev _; simp [speciesLoop]
    | cons s rest ih =>
      intro acc prev hall
      simp only [speciesLoop]
      cases hv : speciesVinit cdict prev s with
      | error e =>
        have := speciesVinit_ne_unbound cdict prev s (hall s (by simp))
        rw [hv] at this
        simpa using this
      | ok vinit =>
        exact ih _ _ (fun s2 hs2 => hall s2 (by simp [hs2]))

/-- A species with neither initial amount nor initial concentration,
first in its model: the C9 witness input. -/
def mdlNoInit : SBMLModel :=
  { id := some "m9", compartments := [], parameters := [],
    species := [{ id := "S9", compartment := "c", hasOnlySubstanceUnits := true,
                  initialAmount := none, initialConcentration := none }],
    rules := [], reactions := [] }

theorem claim_C9_witness :
    convert_sbml2cellml (fun s => s) { model := some mdlNoInit } "stem9" =
      .error .unboundLocal ∧
    speciesVinit [] (some (.num 7))
      { id := "S9b", compartment := "c", hasOnlySubstanceUnits := true,
        initialAmount := none, initialConcentration := none } = .ok (.num 7) ∧
    speciesLoop [] mdlW.species [] none ≠ .error .unboundLocal := by
  refine ⟨?_, ?_, ?_⟩
  · exact claim_C9_unbound_vinit.1 (fun s => s) { model := some mdlNoInit }
      mdlNoInit "stem9" _ [] rfl rfl rfl rfl
  · exact claim_C9_unbound_vinit.2.1 [] (.num 7) _ rfl rfl
  · exact claim_C9_unbound_vinit.2.2 [] mdlW.species [] none
      (by intro s hs; simp [mdlW] at hs; simp [hs])

deriving instance DecidableEq for Except

/-- The C3 input: a compartment of size 2 holding a concentration-type
species (`hasOnlySubstanceUnits` false) with initial amount 3. -/
def mdlC3 : SBMLModel :=
  { id := some "m3",
    compartments := [{ id := "c3", size := .num 2 }],
    parameters := [],
    species := [{ id := "S3", compartment := "c3", hasOnlySubstanceUnits := false,
                  initialAmount := some (.num 3), initialConcentration := none }],
    rules := [], reactions := [] }

/-- The CellML model the converter produces from `mdlC3`. -/
def outC3 : CellMLModel :=
  convertOutput (fun s => s) mdlC3 "stem3" [mkVar "S3" (.num (3 * 2))] []

/-- Claim C3, against the code: a concentration-type species with initial
amount 3 in a compartment of size 2 gets the CellML initial value
3 * 2 = 6 (the code multiplies by the compartment size), not the
equivalent concentration 3 / 2 the claim requires. -/
theorem claim_C3_amount_scaling_bug :
    convert_sbml2cellml (fun s => s) { model := some mdlC3 } "stem3" =
      .ok outC3 ∧
    (∃ comp, outC3.components = [comp] ∧
      comp.vars.map (fun v => (v.name, v.initialValue)) =
        [("time", none), ("c3", some (.num 2)), ("S3", some (.num (3 * 2)))]) ∧
    speciesVinit [("c3", .num 2)] none
      { id := "S3", compartment := "c3", hasOnlySubstanceUnits := false,
        initialAmount := some (.num 3), initialConcentration := none } =
      .ok (.num (3 * 2)) ∧
    (3 * 2 : ℚ) ≠ 3 / 2 := by
  refine ⟨rfl, ⟨_, rfl, rfl⟩, rfl, by norm_num⟩

theorem claim_C4_witness :
    convert_sbml2cellml (fun s => s) { model := none } "stemN" =
      .error .noModel ∧
    ¬ convert_sbml2cellml (fun s => s) docW "stemW" = .error .noModel :=
  ⟨(claim_C4_no_model_error (fun s => s) { model := none } "stemN").mpr rfl,
   fun h => by
     have h2 := (claim_C4_no_model_error (fun s => s) docW "stemW").mp h
     simp [docW] at h2⟩

/-- Specification-level reading of claim C2: the signed contributions one
reaction makes to one species' ODE right-hand side — "- (formula)" per
reactant occurrence, then "+ (formula)" per product occurrence. -/
def contribsOne (sid : String) (r : SBMLReaction) : List String :=
  r.reactants.filterMap
    (fun x => if x = sid then some ("- (" ++ r.formula ++ ")") else none) ++
  r.products.filterMap
    (fun x => if x = sid then some ("+ (" ++ r.formula ++ ")") else none)

/-- Specification-level reading of claim C2: all signed contributions to
one species, in reaction order. -/
def contribs (sid : String) (rs : List SBMLReaction) : List String :=
  (rs.map (contribsOne sid)).flatten

/-- Space-separated concatenation, the joining the accumulation uses. -/
def sjoin : List String → String
  | [] => ""
  | [x] => x
  | x :: xs => x ++ " " ++ sjoin xs

/-- Joining a list of new contributions onto an optional existing term. -/
def joinOpt : Option String → List String → Option String
  | o, [] => o
  | none, l => some (sjoin l)
  | some t, l => some (t ++ " " ++ sjoin l)

theorem sjoin_cons_ne (x : String) (l : List String) (h : l ≠ []) :
    sjoin (x :: l) = x ++ " " ++ sjoin l := by
  cases l with
  | nil => exact absurd rfl h
  | cons y ys => rfl

theorem sjoin_append (l1 l2 : List String) (h1 : l1 ≠ []) (h2 : l2 ≠ []) :
    sjoin (l1 ++ l2) = sjoin l1 ++ " " ++ sjoin l2 := by
  induction l1 with
  | nil => exact absurd rfl h1
  | cons x xs ih =>
    cases xs with
    | nil =>
      rw [List.singleton_append, sjoin_cons_ne x l2 h2]
      rfl
    | cons z zs =>
      rw [List.cons_append,
        sjoin_cons_ne x ((z :: zs) ++ l2) (by simp),
        ih (by simp),
        sjoin_cons_ne x (z :: zs) (by simp)]
      simp [String.append_assoc]

theorem joinOpt_cons (o : Option String) (f : String) (rest : List String) :
    joinOpt (some (match o with | some t => t ++ " " ++ f | none => f)) rest =
      joinOpt o (f :: rest) := by
  cases o with
  | none =>
    cases rest with
    | nil => simp [joinOpt, sjoin]
    | cons r rs =>
      simp only [joinOpt]
      rw [sjoin_cons_ne f (r :: rs) (by simp)]
  | some t =>
    cases rest with
    | nil => simp [joinOpt, sjoin]
    | cons r rs =>
      simp only [joinOpt]
      rw [sjoin_cons_ne f (r :: rs) (by simp)]
      simp [String.append_assoc]

theorem joinOpt_append (o : Option String) (l1 l2 : List String) :
    joinOpt (joinOpt o l1) l2 = joinOpt o (l1 ++ l2) := by
  cases l1 with
  | nil => simp [joinOpt]
  | cons x xs =>
    cases l2 with
    | nil => cases o <;> simp [joinOpt]
    | cons y ys =>
      have hs := sjoin_append (x :: xs) (y :: ys) (by simp) (by simp)
      cases o with
      | none =>
        simp only [joinOpt, List.cons_append] at hs ⊢
        rw [hs]
      | some t =>
        simp only [joinOpt, List.cons_append] at hs ⊢
        rw [hs]
        simp [String.append_assoc]

theorem dictGet?_addTerm (d : List (String × String)) (sid f s : String) :
    dictGet? (addTerm d sid f) s =
      if s = sid then
        some (match dictGet? d sid with
              | some old => old ++ " " ++ f
              | none => f)
      else dictGet? d s := by
  cases h : dictGet? d sid with
  | none => simp [addTerm, h, dictGet?_dictUpd]
  | some old => simp [addTerm, h, dictGet?_dictUpd]

theorem foldl_addTerm_lookup (f : String) :
    ∀ (ids : List String) (d : List (String × String)) (s : String),
      dictGet? (ids.foldl (fun d i => addTerm d i f) d) s =
        joinOpt (dictGet? d s)
          (ids.filterMap (fun x => if x = s then some f else none)) := by
  intro ids
  induction ids with
  | nil => intro d s; simp [joinOpt]
  | cons i ids ih =>
    intro d s
    simp only [List.foldl_cons]
    rw [ih]
    by_cases hi : i = s
    · subst hi
      rw [dictGet?_addTerm, if_pos rfl]
      simp only [List.filterMap_cons, if_pos rfl]
      exact joinOpt_cons (dictGet? d i) f _
    · have hs : ¬ s = i := fun hh => hi hh.symm
      rw [dictGet?_addTerm, if_neg hs]
      simp only [List.filterMap_cons, if_neg hi]

theorem reactionStep_lookup (d : List (String × String)) (r : SBMLReaction)
    (s : String) :
    dictGet? (reactionStep d r) s = joinOpt (dictGet? d s) (contribsOne s r) := by
  unfold reactionStep
  rw [foldl_addTerm_lookup, foldl_addTerm_lookup, joinOpt_append]
  rfl

theorem collectReactionTerms_go (rs : List SBMLReaction) :
    ∀ (d : List (String × String)) (s : String),
      dictGet? (rs.foldl reactionStep d) s =
        joinOpt (dictGet? d s) (contribs s rs) := by
  induction rs with
  | nil => intro d s; simp [contribs, joinOpt]
  | cons r rest ih =>
    intro d s
    simp only [List.foldl_cons]
    rw [ih, reactionStep_lookup, joinOpt_append]
    simp [contribs]

theorem scaleTerms_lookup (mdl : SBMLModel) (stypes : List (String × String)) :
    ∀ (terms scaled : List (String × String)) (sid term : String),
      scaleTerms mdl stypes terms = .ok scaled →
      dictGet? terms sid = some term →
      ((dictGet? stypes sid = some "amount" →
        dictGet? scaled sid = some term) ∧
       (∀ s, dictGet? stypes sid = some "concentration" →
         mdl.species.find? (fun sp => sp.id = sid) = some s →
         dictGet? scaled sid = some (concWrap s.compartment term))) := by
  intro terms
  induction terms with
  | nil => intro scaled sid term hok hterm; simp [dictGet?] at hterm
  | cons p rest ih =>
    intro scaled sid term hok hterm
    obtain ⟨k, t⟩ := p
    simp only [scaleTerms] at hok
    split at hok
    · exact absurd hok (by simp)
    · rename_i ty hty
      split at hok
      · -- ty = "amount"
        rename_i hbam
        split at hok
        · exact absurd hok (by simp)
        · rename_i r hrec
          simp only [Except.ok.injEq] at hok
          subst hok
          by_cases hks : k = sid
          · subst hks
            simp only [dictGet?, if_pos rfl] at hterm
            have ht : t = term := Option.some.inj hterm
            subst ht
            subst hbam
            constructor
            · intro _
              simp [dictGet?]
            · intro s hc hf
              rw [hty] at hc
              exact absurd (Option.some.inj hc) (by decide)
          · have hterm2 : dictGet? rest sid = some term := by
              simpa [dictGet?, hks] using hterm
            obtain ⟨iha, ihc⟩ := ih r sid term hrec hterm2
            have hstep : dictGet? ((k, t) :: r) sid = dictGet? r sid := by
              simp [dictGet?, hks]
            exact ⟨fun h => by rw [hstep]; exact iha h,
              fun s hc hf => by rw [hstep]; exact ihc s hc hf⟩
      · rename_i hbam
        split at hok
        · -- ty = "concentration"
          rename_i hbc
          split at hok
          · exact absurd hok (by simp)
          · rename_i s0 hfind
            split at hok
            · exact absurd hok (by simp)
            · rename_i r hrec
              simp only [Except.ok.injEq] at hok
              subst hok
              by_cases hks : k = sid
              · subst hks
                simp only [dictGet?, if_pos rfl] at hterm
                have ht : t = term := Option.some.inj hterm
                subst ht
                subst hbc
                constructor
                · intro ha
                  rw [hty] at ha
                  exact absurd (Option.some.inj ha) (by decide)
                · intro s hc hf
                  rw [hfind] at hf
                  have hss : s0 = s := Option.some.inj hf
                  subst hss
                  simp [dictGet?]
              · have hterm2 : dictGet? rest sid = some term := by
                  simpa [dictGet?, hks] using hterm
                obtain ⟨iha, ihc⟩ := ih r sid term hrec hterm2
                have hstep : dictGet? ((k, concWrap s0.compartment t) :: r) sid =
                    dictGet? r sid := by
                  simp [dictGet?, hks]
                exact ⟨fun h => by rw [hstep]; exact iha h,
                  fun s hc hf => by rw [hstep]; exact ihc s hc hf⟩
        · -- ty neither "amount" nor "concentration": entry dropped
          rename_i hbc
          by_cases hks : k = sid
          · subst hks
            constructor
            · intro ha
              rw [hty] at ha
              exact absurd (Option.some.inj ha) hbam
            · intro s hc hf
              rw [hty] at hc
              exact absurd (Option.some.inj hc) hbc
          · have hterm2 : dictGet? rest sid = some term := by
              simpa [dictGet?, hks] using hterm
            exact ih scaled sid term hok hterm2

/-- Claim C2: the accumulated ODE right-hand side of each reacting species
is the signed accumulation of kinetic-law formulas, "- (formula)" per
reactant occurrence and "+ (formula)" per product occurrence, concatenated
(space-separated) in reaction order; afterwards an "amount" species keeps
its term while a "concentration" species has it wrapped as
"1.0 dimensionless/{compartment} * ({term})". -/
theorem claim_C2_signed_accumulation :
    (∀ (rs : List SBMLReaction) (sid : String),
      dictGet? (collectReactionTerms rs) sid = joinOpt none (contribs sid rs)) ∧
    (∀ (mdl : SBMLModel) (terms scaled : List (String × String))
      (sid term : String),
      scaleTerms mdl (speciesTypesOf mdl.species) terms = .ok scaled →
      dictGet? terms sid = some term →
      dictGet? (speciesTypesOf mdl.species) sid = some "amount" →
      dictGet? scaled sid = some term) ∧
    (∀ (mdl : SBMLModel) (terms scaled : List (String × String))
      (sid term : String) (s : SBMLSpecies),
      scaleTerms mdl (speciesTypesOf mdl.species) terms = .ok scaled →
      dictGet? terms sid = some term →
      dictGet? (speciesTypesOf mdl.species) sid = some "concentration" →
      mdl.species.find? (fun sp => sp.id = sid) = some s →
      dictGet? scaled sid = some (concWrap s.compartment term)) := by
  refine ⟨?_, ?_, ?_⟩
  · intro rs sid
    have h := collectReactionTerms_go rs [] sid
    simpa [collectReactionTerms, dictGet?] using h
  · intro mdl terms scaled sid term hok hterm hty
    exact (scaleTerms_lookup mdl (speciesTypesOf mdl.species) terms scaled
      sid term hok hterm).1 hty
  · intro mdl terms scaled sid term s hok hterm hty hf
    exact (scaleTerms_lookup mdl (speciesTypesOf mdl.species) terms scaled
      sid term hok hterm).2 s hty hf

/-- Reaction A -> B with kinetic law "k1 * A", for the C2 witness. -/
def rxW : SBMLReaction :=
  { reactants := ["A"], products := ["B"], formula := "k1 * A" }

/-- Reaction B -> A with kinetic law "k2 * B", for the C2 witness. -/
def rx2W : SBMLReaction :=
  { reactants := ["B"], products := ["A"], formula := "k2 * B" }

/-- Model with an amount species A and a concentration species B reacting
through `rxW` and `rx2W`, for the C2 witness. -/
def mdlRx : SBMLModel :=
  { id := some "mrx",
    compartments := [{ id := "c", size := .num 2 }],
    parameters := [],
    species :=
      [{ id := "A", compartment := "c", hasOnlySubstanceUnits := true,
         initialAmount := some (.num 1), initialConcentration := none },
       { id := "B", compartment := "c", hasOnlySubstanceUnits := false,
         initialAmount := none, initialConcentration := some (.num 1) }],
    rules := [], reactions := [rxW, rx2W] }

/-- The scaled reaction terms of `mdlRx`. -/
def scaledRx : List (String × String) :=
  [("A", "- (k1 * A) + (k2 * B)"),
   ("B", concWrap "c" "+ (k1 * A) - (k2 * B)")]

theorem claim_C2_witness :
    dictGet? (collectReactionTerms [rxW, rx2W]) "A" =
      joinOpt none (contribs "A" [rxW, rx2W]) ∧
    dictGet? scaledRx "A" = some "- (k1 * A) + (k2 * B)" ∧
    dictGet? scaledRx "B" = some (concWrap "c" "+ (k1 * A) - (k2 * B)") := by
  refine ⟨claim_C2_signed_accumulation.1 [rxW, rx2W] "A", ?_, ?_⟩
  · exact claim_C2_signed_accumulation.2.1 mdlRx
      (collectReactionTerms mdlRx.reactions) scaledRx "A"
      "- (k1 * A) + (k2 * B)" (by decide) (by decide) (by decide)
  · exact claim_C2_signed_accumulation.2.2 mdlRx
      (collectReactionTerms mdlRx.reactions) scaledRx "B"
      "+ (k1 * A) - (k2 * B)"
      { id := "B", compartment := "c", hasOnlySubstanceUnits := false,
        initialAmount := none, initialConcentration := some (.num 1) }
      (by decide) (by decide) (by decide) (by decide)

/-- Claim C10: the component math is one `<math>` element carrying the
MathML and CellML namespaces, whose children are the assignment-rule
equations first, then the rate-rule differentials, then the
reacting-species differentials, joined by newlines. -/
theorem claim_C10_math_element_order (toMathML : String → String)
    (doc : SBMLDocument) (mdl : SBMLModel) (stem : String) (m : CellMLModel)
    (scaled : List (String × String))
    (hm : doc.model = some mdl)
    (hc : convert_sbml2cellml toMathML doc stem = .ok m)
    (hs : scaleTerms mdl (speciesTypesOf mdl.species)
      (collectReactionTerms mdl.reactions) = .ok scaled) :
    ∃ comp, m.components = [comp] ∧
      comp.math =
        cellmlMathOpen ++
        String.intercalate "\n"
          ((collectRules mdl.rules).1.map
            (fun kv => mathml_for_assignment toMathML kv.1 kv.2) ++
           (collectRules mdl.rules).2.map
            (fun kv => mathml_for_diff toMathML kv.1 kv.2 "time") ++
           scaled.map (fun kv => mathml_for_diff toMathML kv.1 kv.2 "time")) ++
        "</math>" ∧
      cellmlMathOpen =
        "<math xmlns=\"http://www.w3.org/1998/Math/MathML\" xmlns:cellml=\"http://www.cellml.org/cellml/2.0#\">\n" := by
  unfold convert_sbml2cellml at hc
  rw [hm] at hc
  obtain ⟨svars, prev, scaled2, hsp, hsc, hm2⟩ := convertModel_ok_elim hc
  rw [hsc] at hs
  have hss : scaled2 = scaled := Except.ok.inj hs
  subst hss
  subst hm2
  exact ⟨_, rfl, rfl, rfl⟩

theorem claim_C10_witness :
    ∃ comp, outW.components = [comp] ∧
      comp.math =
        cellmlMathOpen ++
        String.intercalate "\n"
          ((collectRules mdlW.rules).1.map
            (fun kv => mathml_for_assignment (fun s => s) kv.1 kv.2) ++
           (collectRules mdlW.rules).2.map
            (fun kv => mathml_for_diff (fun s => s) kv.1 kv.2 "time") ++
           ([] : List (String × String)).map
            (fun kv => mathml_for_diff (fun s => s) kv.1 kv.2 "time")) ++
        "</math>" ∧
      cellmlMathOpen =
        "<math xmlns=\"http://www.w3.org/1998/Math/MathML\" xmlns:cellml=\"http://www.cellml.org/cellml/2.0#\">\n" :=
  claim_C10_math_element_order (fun s => s) docW mdlW "stemW" outW [] rfl rfl rfl

theorem dictUpd_of_fresh {α : Type} :
    ∀ (d : List (String × α)) (k : String) (v : α),
      dictGet? d k = none → dictUpd d k v = d ++ [(k, v)] := by
  intro d
  induction d with
  | nil => intro k v _; rfl
  | cons p d ih =>
    intro k v h
    simp only [dictGet?] at h
    by_cases hp : p.1 = k
    · simp [hp] at h
    · simp only [dictUpd, if_neg hp, List.cons_append]
      rw [ih k v (by simpa [hp] using h)]

theorem dictGet?_append {α : Type} :
    ∀ (d1 d2 : List (String × α)) (k : String),
      dictGet? (d1 ++ d2) k =
        match dictGet? d1 k with
        | some v => some v
        | none => dictGet? d2 k := by
  intro d1
  induction d1 with
  | nil => intro d2 k; simp [dictGet?]
  | cons p d1 ih =>
    intro d2 k
    by_cases hp : p.1 = k <;> simp [dictGet?, hp, ih]

/-- Uncurried dictionary assignment, for stating fold lemmas. -/
@[reducible] def dictUpdP {α : Type} (d : List (String × α)) (q : String × α) :
    List (String × α) :=
  dictUpd d q.1 q.2

theorem foldl_dictUpd_fresh {α : Type} :
    ∀ (l : List (String × α)) (d : List (String × α)),
      (∀ p ∈ l, dictGet? d p.1 = none) → (l.map Prod.fst).Nodup →
      l.foldl dictUpdP d = d ++ l := by
  intro l
  induction l with
  | nil => intro d _ _; simp
  | cons p l ih =>
    intro d hfresh hnodup
    simp only [List.foldl_cons, dictUpdP]
    rw [dictUpd_of_fresh d p.1 p.2 (hfresh p (by simp))]
    rw [ih (d ++ [p])]
    · simp
    · intro q hq
      rw [dictGet?_append]
      have h1 : dictGet? d q.1 = none := hfresh q (by simp [hq])
      have h2 : p.1 ≠ q.1 := by
        simp only [List.map_cons, List.nodup_cons] at hnodup
        intro he
        exact hnodup.1 (he ▸ List.mem_map_of_mem Prod.fst hq)
      simp [h1, dictGet?, h2]
    · simp only [List.map_cons, List.nodup_cons] at hnodup
      exact hnodup.2

theorem range_map_getD {α γ : Type} (dflt : γ) (f : α → γ) :
    ∀ (xs : List α),
      (List.range xs.length).map (fun k => ((xs.get? k).map f).getD dflt) =
        xs.map f := by
  intro xs
  induction xs with
  | nil => simp
  | cons x xs ih =>
    rw [List.length_cons, List.range_succ_eq_map, List.map_cons, List.map_map,
      List.map_cons]
    congr 1

theorem task_fold_eq {γ : Type} (t : OCSedInstanceTask) (f : Nat → γ)
    (e : String × List ℚ × String → γ) (dflt : γ)
    (hf : ∀ k, f k = ((t.states.get? k).map e).getD dflt)
    (d0 : List (String × γ))
    (hfresh : ∀ p ∈ t.states.map (fun p => (p.1, e p)), dictGet? d0 p.1 = none)
    (hnodup : (t.states.map Prod.fst).Nodup) :
    (List.range t.state_count).foldl
      (fun d k => dictUpd d (t.state_name k) (f k)) d0 =
      d0 ++ t.states.map (fun p => (p.1, e p)) := by
  have hbody : (fun (d : List (String × γ)) k =>
      dictUpd d (t.state_name k) (f k)) =
      fun d k => dictUpdP d
        (((t.states.get? k).map (fun p => (p.1, e p))).getD ("", dflt)) := by
    funext d k
    cases hk : t.states.get? k with
    | none =>
      unfold OCSedInstanceTask.state_name dictUpdP
      rw [hf k, hk]
      rfl
    | some p =>
      unfold OCSedInstanceTask.state_name dictUpdP
      rw [hf k, hk]
      rfl
  rw [hbody, ← List.foldl_map, OCSedInstanceTask.state_count,
    range_map_getD ("", dflt) (fun p => (p.1, e p)) t.states]
  apply foldl_dictUpd_fresh _ _ hfresh
  have hfst : (t.states.map (fun p => (p.1, e p))).map Prod.fst =
      t.states.map Prod.fst := by
    simp [Function.comp]
  rw [hfst]
  exact hnodup

/-- Claim C6: the simulation pipeline executes load, file check, document
build, document check, simulation configuration, instantiation, instance
check, run, post-run check, and only then result extraction from the first
task, in exactly that order. -/
theorem claim_C6_pipeline_order (eng : Engine) (path : String)
    (start endT : ℚ) (steps : Nat) (t : OCSedInstanceTask)
    (ts : List OCSedInstanceTask)
    (htasks : (eng.runInstance (eng.instantiateDocument
      (eng.makeDocument (eng.loadFile path))
      { initial_time := start, output_start_time := start,
        output_end_time := endT, number_of_steps := steps })).tasks = t :: ts) :
    ∃ m1 m2 m3 m4,
      (run_cellml_timecourse eng path start endT steps).2 =
        [SimEvent.load path, SimEvent.printOut m1, SimEvent.buildDocument,
         SimEvent.printOut m2,
         SimEvent.configureSimulation start start endT steps,
         SimEvent.instantiateDoc, SimEvent.printOut m3, SimEvent.runSim,
         SimEvent.printOut m4, SimEvent.extractTask 0] := by
  simp only [run_cellml_timecourse]
  rw [htasks]
  exact ⟨_, _, _, _, rfl⟩

/-- Claim C7: on a successful run the returned data frame has the
variable of integration as first column followed by exactly one column per
state (in state order, keyed by state name), and the units dictionary has
exactly the same keys. -/
theorem claim_C7_result_columns (eng : Engine) (path : String)
    (start endT : ℚ) (steps : Nat) (t : OCSedInstanceTask)
    (ts : List OCSedInstanceTask)
    (htasks : (eng.runInstance (eng.instantiateDocument
      (eng.makeDocument (eng.loadFile path))
      { initial_time := start, output_start_time := start,
        output_end_time := endT, number_of_steps := steps })).tasks = t :: ts)
    (hnodup : (t.voi_name :: t.states.map Prod.fst).Nodup) :
    ∃ df units,
      (run_cellml_timecourse eng path start endT steps).1 = .ok (df, units) ∧
      df = (t.voi_name, t.voi) :: t.states.map (fun p => (p.1, p.2.1)) ∧
      units = (t.voi_name, t.voi_unit) :: t.states.map (fun p => (p.1, p.2.2)) ∧
      df.map Prod.fst =
        t.voi_name :: (List.range t.state_count).map t.state_name ∧
      units.map Prod.fst = df.map Prod.fst ∧
      df.length = 1 + t.state_count := by
  simp only [List.nodup_cons] at hnodup
  obtain ⟨hvoi, hnames⟩ := hnodup
  have hfreshD : ∀ p ∈ t.states.map
      (fun p => (p.1, (p.2.1 : List ℚ))),
      dictGet? [(t.voi_name, t.voi)] p.1 = none := by
    intro p hp
    obtain ⟨q, hq, hqe⟩ := List.mem_map.mp hp
    have : p.1 = q.1 := by rw [← hqe]
    rw [this]
    have hne : t.voi_name ≠ q.1 :=
      fun he => hvoi (he ▸ List.mem_map_of_mem Prod.fst hq)
    simp [dictGet?, hne]
  have hfreshU : ∀ p ∈ t.states.map
      (fun p => (p.1, (p.2.2 : String))),
      dictGet? [(t.voi_name, t.voi_unit)] p.1 = none := by
    intro p hp
    obtain ⟨q, hq, hqe⟩ := List.mem_map.mp hp
    have : p.1 = q.1 := by rw [← hqe]
    rw [this]
    have hne : t.voi_name ≠ q.1 :=
      fun he => hvoi (he ▸ List.mem_map_of_mem Prod.fst hq)
    simp [dictGet?, hne]
  have hdata := task_fold_eq t t.state (fun p => p.2.1) []
    (fun k => rfl) [(t.voi_name, t.voi)] hfreshD hnames
  have hunits := task_fold_eq t t.state_unit (fun p => p.2.2) ""
    (fun k => rfl) [(t.voi_name, t.voi_unit)] hfreshU hnames
  have hkeys : (List.range t.state_count).map t.state_name =
      t.states.map Prod.fst := by
    have := range_map_getD "" (fun (p : String × List ℚ × String) => p.1)
      t.states
    rw [← this, OCSedInstanceTask.state_count]
    rfl
  refine ⟨(t.voi_name, t.voi) :: t.states.map (fun p => (p.1, p.2.1)),
    (t.voi_name, t.voi_unit) :: t.states.map (fun p => (p.1, p.2.2)),
    ?_, rfl, rfl, ?_, ?_, ?_⟩
  · simp only [run_cellml_timecourse, htasks]
    rw [hdata, hunits]
    rfl
  · rw [hkeys]
    simp [Function.comp]
  · simp [Function.comp]
  · simp [OCSedInstanceTask.state_count, Nat.add_comm]

/-- A concrete instantiated task with two states, for witnesses. -/
def taskT : OCSedInstanceTask :=
  { voi := [0, 1, 2], voi_name := "t", voi_unit := "second",
    states := [("S1", ([1, 2, 3], "mM")), ("S2", ([4, 5, 6], "mM"))] }

/-- A concrete engine: the document reports two issues, everything else is
clean, running leaves the instance unchanged. -/
def engT : Engine :=
  { loadFile := fun _ => { issues := [] },
    makeDocument := fun _ =>
      { issues := [{ level := "2", description := "first doc issue" },
                   { level := "3", description := "second doc issue" }] },
    instantiateDocument := fun _ _ => { issues := [], tasks := [taskT] },
    runInstance := fun inst => inst }

theorem claim_C6_witness :
    ∃ m1 m2 m3 m4,
      (run_cellml_timecourse engT "model.cellml" 0 100 100).2 =
        [SimEvent.load "model.cellml", SimEvent.printOut m1,
         SimEvent.buildDocument, SimEvent.printOut m2,
         SimEvent.configureSimulation 0 0 100 100, SimEvent.instantiateDoc,
         SimEvent.printOut m3, SimEvent.runSim, SimEvent.printOut m4,
         SimEvent.extractTask 0] :=
  claim_C6_pipeline_order engT "model.cellml" 0 100 100 taskT [] rfl

theorem claim_C7_witness :
    ∃ df units,
      (run_cellml_timecourse engT "model.cellml" 0 100 100).1 =
        .ok (df, units) ∧
      df = (taskT.voi_name, taskT.voi) ::
        taskT.states.map (fun p => (p.1, p.2.1)) ∧
      units = (taskT.voi_name, taskT.voi_unit) ::
        taskT.states.map (fun p => (p.1, p.2.2)) ∧
      df.map Prod.fst =
        taskT.voi_name ::
          (List.range taskT.state_count).map taskT.state_name ∧
      units.map Prod.fst = df.map Prod.fst ∧
      df.length = 1 + taskT.state_count :=
  claim_C7_result_columns engT "model.cellml" 0 100 100 taskT [] rfl
    (by decide)

/-- A two-issue logger report, refuting "prints only the first issue". -/
def issues2 : List LibIssue :=
  [{ level := "2", description := "first issue" },
   { level := "3", description := "second issue" }]

theorem claim_C5_counterexample :
    issueLine 1 { level := "3", description := "second issue" } ∈
      print_issues "Validator: " issues2 ∧
    (print_issues "Validator: " issues2).length = 3 := by
  constructor
  · decide
  · decide

/-- Claim C5 as amended: the four issue checks of
`run_cellml_timecourse` print only the first issue's description (or an
all-good message) and execution continues to the run step regardless,
while `print_issues` on the validation path prints a count line and one
line for EVERY issue, not only the first. -/
theorem claim_C5_first_issue_printing :
    (∀ (good : String) (i : LibIssue) (rest : List LibIssue),
      issueCheckMsg good (i :: rest) = i.description) ∧
    (∀ (eng : Engine) (path : String) (start endT : ℚ) (steps : Nat),
      SimEvent.printOut (issueCheckMsg "File: all good!"
        (eng.loadFile path).issues) ∈
        (run_cellml_timecourse eng path start endT steps).2 ∧
      SimEvent.printOut (issueCheckMsg "Document: all good!"
        (eng.makeDocument (eng.loadFile path)).issues) ∈
        (run_cellml_timecourse eng path start endT steps).2 ∧
      SimEvent.printOut (issueCheckMsg "Instance: all good!"
        (eng.instantiateDocument (eng.makeDocument (eng.loadFile path))
          { initial_time := start, output_start_time := start,
            output_end_time := endT, number_of_steps := steps }).issues) ∈
        (run_cellml_timecourse eng path start endT steps).2 ∧
      SimEvent.printOut (issueCheckMsg "Instance running: all good!"
        (eng.runInstance (eng.instantiateDocument
          (eng.makeDocument (eng.loadFile path))
          { initial_time := start, output_start_time := start,
            output_end_time := endT, number_of_steps := steps })).issues) ∈
        (run_cellml_timecourse eng path start endT steps).2 ∧
      SimEvent.runSim ∈ (run_cellml_timecourse eng path start endT steps).2) ∧
    (∀ (title : String) (issues : List LibIssue),
      (print_issues title issues).length =
        if issues.length = 0 then 0 else issues.length + 1) ∧
    (∀ (title : String) (issues : List LibIssue) (k : Nat),
      k < issues.length →
      issueLine k ((issues.get? k).getD { level := "", description := "" }) ∈
        print_issues title issues) := by
  refine ⟨fun good i rest => rfl, ?_, ?_, ?_⟩
  · intro eng path start endT steps
    cases htasks : (eng.runInstance (eng.instantiateDocument
        (eng.makeDocument (eng.loadFile path))
        { initial_time := start, output_start_time := start,
          output_end_time := endT, number_of_steps := steps })).tasks with
    | nil =>
      simp only [run_cellml_timecourse, htasks]
      refine ⟨?_, ?_, ?_, ?_, ?_⟩ <;> simp
    | cons t ts =>
      simp only [run_cellml_timecourse, htasks]
      refine ⟨?_, ?_, ?_, ?_, ?_⟩ <;> simp
  · intro title issues
    by_cases h : issues.length = 0
    · simp [print_issues, h]
    · simp [print_issues, h]
  · intro title issues k hk
    have hne : issues.length ≠ 0 := by
      intro h0
      rw [h0] at hk
      exact Nat.not_lt_zero k hk
    unfold print_issues
    rw [if_pos hne]
    apply List.mem_cons_of_mem
    apply List.mem_map.mpr
    exact ⟨k, List.mem_range.mpr hk, rfl⟩

theorem claim_C5_witness :
    issueCheckMsg "File: all good!" issues2 = "first issue" ∧
    issueLine 1 ((issues2.get? 1).getD { level := "", description := "" }) ∈
      print_issues "Validator: " issues2 ∧
    SimEvent.runSim ∈ (run_cellml_timecourse engT "model.cellml" 0 100 100).2 :=
  ⟨claim_C5_first_issue_printing.1 "File: all good!"
     { level := "2", description := "first issue" }
     [{ level := "3", description := "second issue" }],
   claim_C5_first_issue_printing.2.2.2 "Validator: " issues2 1 (by decide),
   (claim_C5_first_issue_printing.2.1 engT "model.cellml" 0 100 100).2.2.2.2⟩
